import Mathlib

/-!
Shallow embedding of the workflow-step core of the `operon` durable-execution
runtime (the TypeScript sources `WorkflowContextImpl` and
`WorkflowContextDebug`).

Modelling conventions:
* Serialized JSON payloads (`output`, `error` columns and user values) are
  modelled by the atomic JSON values `Json`; every claim is parametric in the
  payloads, so composite JSON values are not needed.  `JSON.parse` after
  `JSON.stringify`, and `deserializeError` after `serializeError`, are the
  identity on this value domain, so rows store the parsed values directly.
* Each PostgreSQL transaction is atomic: a model step that corresponds to one
  database transaction either commits all of its writes or (when the
  TypeScript callback throws) leaves the database unchanged.  The in-memory
  result buffer is not transactional and keeps its mutations on abort,
  exactly as `this.resultBuffer` does.
* Asynchronous sleeps are recorded as a list of waited durations
  (milliseconds for the transaction retry loop, seconds for communicator
  retries, matching the units of the arguments passed to `sleep`).
-/

/-- Atomic JSON values: the payload domain of the model. -/
inductive Json where
  | null
  | bool (b : Bool)
  | num (n : Int)
  | str (s : String)
deriving DecidableEq, Repr

/-- The error kinds thrown by the embedded code (`src/error.ts` classes and
the JavaScript `TypeError` reachable in the debug path). `user e` is an
application error whose serialize-error envelope decodes to `e`. -/
inductive DBOSErr where
  | user (e : Json)
  | workflowConflict (uuid : String)
  | notRegistered (name : String)
  | maxRetries
  | debugger (msg : String)
  | jsTypeError
deriving DecidableEq, Repr

/-- `serializeError` on the errors the embedded code records
(`JSON.parse ∘ JSON.stringify ∘ serializeError` collapsed to one map). -/
def serializeErr : DBOSErr → Json
  | .user e => e
  | .workflowConflict u => .str ("Conflicting UUID " ++ u)
  | .notRegistered n => .str ("Operation (Name: " ++ n ++ ") not registered")
  | .maxRetries => .str "Communicator reached maximum retries."
  | .debugger m => .str m
  | .jsTypeError => .str "TypeError"

/-- One row of `dbos.transaction_outputs`, with `output` and `error` kept in
parsed form (`error = Json.null` models the SQL text `'null'`). -/
structure TxRow where
  output : Json
  error : Json
  txn_snapshot : String
  txn_id : Option String
deriving DecidableEq, Repr

/-- The `dbos.transaction_outputs` table: rows keyed by
(workflow_uuid, function_id). -/
abbrev TxDB := List ((String × Nat) × TxRow)

/-- `SELECT ... WHERE workflow_uuid=$1 AND function_id=$2` (primary key, so
the first match is the row). -/
def lookupTx (db : TxDB) (wf : String) (fid : Nat) : Option TxRow :=
  (db.find? (fun e => decide (e.1 = (wf, fid)))).map (·.2)

/-- An entry of the in-memory `resultBuffer` (`BufferedResult` in
`src/workflow.ts`). -/
structure BufferedResult where
  output : Json
  txn_snapshot : String
deriving DecidableEq, Repr

/-- `Map<number, BufferedResult>`: the per-context result buffer. -/
abbrev Buffer := List (Nat × BufferedResult)

def bufLookup (b : Buffer) (fid : Nat) : Option BufferedResult :=
  (b.find? (fun e => decide (e.1 = fid))).map (·.2)

/-- `Map.set`: replace any entry with the key, keeping keys unique. -/
def bufSet (b : Buffer) (fid : Nat) (r : BufferedResult) : Buffer :=
  b.filter (fun e => decide (e.1 ≠ fid)) ++ [(fid, r)]

/-- `WorkflowContextImpl.functionIDGetIncrement`: returns the current counter
value and the incremented counter. -/
def functionIDGetIncrement (functionID : Nat) : Nat × Nat :=
  (functionID, functionID + 1)

/-- `WorkflowContextImpl.flushResultBuffer`: one multi-row INSERT of every
buffered entry into `dbos.transaction_outputs` (output := buffered output,
error := `JSON.stringify(null)`, txn_id := null).  A primary-key conflict on
any inserted row makes PostgreSQL reject the whole statement and the code
rethrows it as `DBOSWorkflowConflictUUIDError`. -/
def flushResultBuffer (wf : String) (buf : Buffer) (db : TxDB) : Except DBOSErr TxDB :=
  if buf.isEmpty then .ok db
  else if buf.any (fun e => (lookupTx db wf e.1).isSome) then
    .error (.workflowConflict wf)
  else
    .ok (db ++ buf.map (fun e => ((wf, e.1), ⟨e.2.output, Json.null, e.2.txn_snapshot, none⟩)))

/-- Result of `WorkflowContextImpl.checkExecution`: either no recorded row
(with the current snapshot, read from the sentinel row of the UNION query)
or a recorded output. A recorded non-null error is thrown. -/
inductive CheckOut where
  | noRecord (snap : String)
  | recorded (output : Json) (snap : String)
deriving DecidableEq, Repr

/-- `WorkflowContextImpl.checkExecution`: guarded SELECT over
`dbos.transaction_outputs` unioned with a sentinel row carrying
`pg_current_snapshot()` (modelled by the `curSnap` argument). -/
def checkExecution (db : TxDB) (wf : String) (fid : Nat) (curSnap : String) :
    Except DBOSErr CheckOut :=
  match lookupTx db wf fid with
  | none => .ok (.noRecord curSnap)
  | some row =>
    if row.error = Json.null then .ok (.recorded row.output curSnap)
    else .error (.user row.error)

/-- `WorkflowContextImpl.guardOperation`: buffer a placeholder (output null)
with the captured snapshot. -/
def guardOperation (buf : Buffer) (fid : Nat) (txnSnapshot : String) : Buffer :=
  bufSet buf fid ⟨Json.null, txnSnapshot⟩

/-- `WorkflowContextImpl.recordGuardedOutput`: UPDATE the guard row's output
and txn_id. -/
def recordGuardedOutput (db : TxDB) (wf : String) (fid : Nat) (output : Json)
    (txid : String) : TxDB :=
  db.map (fun e =>
    if e.1 = (wf, fid) then (e.1, { e.2 with output := output, txn_id := some txid }) else e)

/-- `WorkflowContextImpl.recordGuardedError`: UPDATE the guard row's error. -/
def recordGuardedError (db : TxDB) (wf : String) (fid : Nat) (err : Json) : TxDB :=
  db.map (fun e =>
    if e.1 = (wf, fid) then (e.1, { e.2 with error := err }) else e)

/-- Decidable equality for `Except`, needed to evaluate the model on
concrete inputs with `decide`. -/
instance {ε α : Type} [DecidableEq ε] [DecidableEq α] : DecidableEq (Except ε α) := fun a b =>
  match a, b with
  | .error e, .error f =>
    if h : e = f then .isTrue (by rw [h]) else .isFalse (fun hh => h (by cases hh; rfl))
  | .error _, .ok _ => .isFalse (fun hh => by cases hh)
  | .ok _, .error _ => .isFalse (fun hh => by cases hh)
  | .ok x, .ok y =>
    if h : x = y then .isTrue (by rw [h]) else .isFalse (fun hh => h (by cases hh; rfl))

/-- Outcome of one committed database transaction running the
`wrappedTransaction` closure of `WorkflowContextImpl.transaction`.  `res` is
the value returned or thrown; `db` is the database after commit (unchanged
when the closure throws, since the transaction then rolls back); `buffer` is
the non-transactional in-memory buffer, which keeps its mutations on abort;
`invoked` records whether the user's transaction function ran. -/
structure AttemptResult where
  res : Except DBOSErr Json
  db : TxDB
  buffer : Buffer
  invoked : Bool
deriving DecidableEq, Repr

/-- The `wrappedTransaction` closure inside `WorkflowContextImpl.transaction`:
check for a recorded result; otherwise set the guard, flush the buffer when
not read-only, run the user's transaction (modelled by its outcome `user`:
`.ok v` returns `v`, `.error e` throws the application error `e`), then
record or buffer the output. -/
def wrappedTransaction (wf : String) (fid : Nat) (readOnly : Bool)
    (curSnap txid : String) (user : Except Json Json)
    (db : TxDB) (buffer : Buffer) : AttemptResult :=
  match checkExecution db wf fid curSnap with
  | .error e => ⟨.error e, db, buffer, false⟩
  | .ok (.recorded out _) => ⟨.ok out, db, buffer, false⟩
  | .ok (.noRecord snap) =>
    let buf1 := guardOperation buffer fid snap
    if readOnly then
      match user with
      | .ok v => ⟨.ok v, db, bufSet buf1 fid ⟨v, snap⟩, true⟩
      | .error e => ⟨.error (.user e), db, buf1, true⟩
    else
      match flushResultBuffer wf buf1 db with
      | .error e => ⟨.error e, db, buf1, false⟩
      | .ok db1 =>
        match user with
        | .ok v => ⟨.ok v, recordGuardedOutput db1 wf fid v txid, [], true⟩
        | .error e => ⟨.error (.user e), db, buf1, true⟩

/-- One loop iteration of `WorkflowContextImpl.transaction` in which the
user database does not raise a retriable serialization error: run
`wrappedTransaction`; on a thrown (non-retriable) error, flush the result
buffer and record the error in a fresh READ COMMITTED transaction, clear the
buffer, and rethrow (a conflict raised by that flush propagates instead and
leaves the buffer uncleared). -/
def runCommitAttempt (wf : String) (fid : Nat) (readOnly : Bool)
    (curSnap txid : String) (user : Except Json Json)
    (db : TxDB) (buffer : Buffer) : AttemptResult :=
  let a := wrappedTransaction wf fid readOnly curSnap txid user db buffer
  match a.res with
  | .ok v => ⟨.ok v, a.db, a.buffer, a.invoked⟩
  | .error e =>
    match flushResultBuffer wf a.buffer a.db with
    | .error ce => ⟨.error ce, a.db, a.buffer, a.invoked⟩
    | .ok db1 => ⟨.error e, recordGuardedError db1 wf fid (serializeErr e), [], a.invoked⟩

/-- Behaviour of the user database on one iteration of the retry loop:
either the whole attempt aborts with a retriable serialization error
(`serFail`, all transactional writes rolled back) or the attempt runs to its
own outcome (`commit`). -/
inductive InfraStep where
  | serFail
  | commit
deriving DecidableEq, Repr

/-- Result of the `while (true)` retry loop of
`WorkflowContextImpl.transaction`. `finished = none` means the observed
schedule ended with the loop still retrying. `sleeps` lists the arguments of
the `sleep(retryWaitMillis)` calls, in order. -/
structure LoopOutcome where
  finished : Option (Except DBOSErr Json)
  db : TxDB
  buffer : Buffer
  sleeps : List Nat
  invocations : Nat
deriving DecidableEq, Repr

/-- The `while (true)` loop of `WorkflowContextImpl.transaction`, driven by a
schedule of user-database behaviours.  On a retriable serialization error the
loop sleeps `retryWaitMillis`, doubles it (`backoffFactor = 2`), and
continues; otherwise the iteration's outcome ends the loop. -/
def transactionLoopAux (wf : String) (fid : Nat) (readOnly : Bool)
    (curSnap txid : String) (user : Except Json Json) :
    List InfraStep → TxDB → Buffer → Nat → List Nat → LoopOutcome
  | [], db, buf, _, sleeps => ⟨none, db, buf, sleeps, 0⟩
  | .serFail :: rest, db, buf, wait, sleeps =>
    transactionLoopAux wf fid readOnly curSnap txid user rest db buf (wait * 2) (sleeps ++ [wait])
  | .commit :: _, db, buf, _, sleeps =>
    let c := runCommitAttempt wf fid readOnly curSnap txid user db buf
    ⟨some c.res, c.db, c.buffer, sleeps, if c.invoked then 1 else 0⟩

/-- `TransactionConfig` from `src/transaction.ts` (the isolation level is
irrelevant to the claims; `readOnly` is read with `?? false`). -/
structure TxConfig where
  readOnly : Option Bool
deriving DecidableEq, Repr

def lookupCfg {α : Type} (cfgs : List (String × α)) (name : String) : Option α :=
  (cfgs.find? (fun e => decide (e.1 = name))).map (·.2)

/-- `WorkflowContextImpl.transaction`: look up the registered configuration
(`DBOSNotRegisteredError` otherwise, thrown before any attempt), initialize
`retryWaitMillis = 1`, and run the retry loop at the already-incremented
function id `fid`. -/
def transactionCall (cfgs : List (String × TxConfig)) (name : String)
    (wf : String) (fid : Nat) (curSnap txid : String) (user : Except Json Json)
    (sched : List InfraStep) (db : TxDB) (buffer : Buffer) : LoopOutcome :=
  match lookupCfg cfgs name with
  | none => ⟨some (.error (.notRegistered name)), db, buffer, [], 0⟩
  | some cfg =>
    transactionLoopAux wf fid (cfg.readOnly.getD false) curSnap txid user sched db buffer 1 []

/-- One full execution (fresh context, hence an empty result buffer) of a
transactional step by some process, as one committed database transaction;
used to model concurrent duplicate executions and replays after crashes. -/
structure Attempt where
  readOnly : Bool
  user : Except Json Json
  snap : String
  txid : String
deriving DecidableEq, Repr

/-- Run a sequence of executions of the same (workflow id, function id)
transactional step against the shared database, each with a fresh in-memory
buffer; returns each execution's (outcome, user-code-invoked) pair and the
final database. -/
def runTrace (wf : String) (fid : Nat) :
    List Attempt → TxDB → (List (Except DBOSErr Json × Bool) × TxDB)
  | [], db => ([], db)
  | a :: as, db =>
    let c := runCommitAttempt wf fid a.readOnly a.snap a.txid a.user db []
    let rest := runTrace wf fid as c.db
    ((c.res, c.invoked) :: rest.1, rest.2)

/-- The outcome a transactional step execution yields from the user outcome
`u`, identical to what later replays of the recorded row yield. -/
def outcomeOf : Except Json Json → Except DBOSErr Json
  | .ok v => .ok v
  | .error e => .error (.user e)

/-- One row of `dbos.operation_outputs` (the system database's table for
non-transactional steps); `error = Json.null` models a null error column. -/
structure OpRow where
  output : Json
  error : Json
deriving DecidableEq, Repr

/-- The `dbos.operation_outputs` table keyed by (workflow_uuid, function_id). -/
abbrev OpDB := List ((String × Nat) × OpRow)

def lookupOp (db : OpDB) (wf : String) (fid : Nat) : Option OpRow :=
  (db.find? (fun e => decide (e.1 = (wf, fid)))).map (·.2)

/-- Modelled from the spec: `SystemDatabase.checkOperationOutput` is not under
`src/` (only its callers are).  Per the spec's non-transactional step
protocol, it returns the recorded value if present, throws the recorded
error if one was recorded, and reports absence otherwise. -/
def checkOperationOutput (db : OpDB) (wf : String) (fid : Nat) :
    Except DBOSErr (Option Json) :=
  match lookupOp db wf fid with
  | none => .ok none
  | some row =>
    if row.error = Json.null then .ok (some row.output) else .error (.user row.error)

/-- Modelled from the spec: `SystemDatabase.recordOperationOutput` is not
under `src/`.  Per the spec's idempotency contract it is an
UPSERT-with-equality-check: silent success when an identical row exists,
conflict when the payload differs, insert otherwise. -/
def recordOperationOutput (db : OpDB) (wf : String) (fid : Nat) (output : Json) :
    Except DBOSErr OpDB :=
  match lookupOp db wf fid with
  | none => .ok (db ++ [((wf, fid), ⟨output, Json.null⟩)])
  | some row =>
    if row = ⟨output, Json.null⟩ then .ok db else .error (.workflowConflict wf)

/-- Modelled from the spec: `SystemDatabase.recordOperationError` is not
under `src/`.  Same UPSERT-with-equality-check, recording a serialized
error. -/
def recordOperationError (db : OpDB) (wf : String) (fid : Nat) (err : Json) :
    Except DBOSErr OpDB :=
  match lookupOp db wf fid with
  | none => .ok (db ++ [((wf, fid), ⟨Json.null, err⟩)])
  | some row =>
    if row = ⟨Json.null, err⟩ then .ok db else .error (.workflowConflict wf)

/-- Communicator retry configuration (`src/communicator.ts` config read by
`WorkflowContextImpl.external`); intervals are fractional seconds. -/
structure CommConfig where
  retriesAllowed : Bool
  intervalSeconds : Rat
  maxAttempts : Nat
  backoffRate : Rat
deriving DecidableEq, Repr

/-- The retry loop of `WorkflowContextImpl.external` when retries are
allowed: `remaining` is `maxAttempts - numAttempts` (the loop guard
`numAttempts++ < maxAttempts`), `calls` counts invocations of the user
function so far, and `oracle i` is the outcome of the i-th invocation.
A failure sleeps `intervalSeconds` and multiplies it by `backoffRate`
unless the attempt just made was the last one. -/
def retryExec (oracle : Nat → Except Json Json) (backoffRate : Rat) :
    Nat → Nat → Rat → List Rat → (Option Json × Nat × List Rat)
  | 0, calls, _, sleeps => (none, calls, sleeps)
  | remaining + 1, calls, intervalSeconds, sleeps =>
    match oracle calls with
    | .ok v => (some v, calls + 1, sleeps)
    | .error _ =>
      if remaining = 0 then (none, calls + 1, sleeps)
      else
        retryExec oracle backoffRate remaining (calls + 1)
          (intervalSeconds * backoffRate) (sleeps ++ [intervalSeconds])

/-- Full observable outcome of one `WorkflowContextImpl.external` call. -/
structure ExternalOutcome where
  res : Except DBOSErr Json
  txdb : TxDB
  opdb : OpDB
  buffer : Buffer
  invocations : Nat
  sleeps : List Rat
deriving DecidableEq, Repr

/-- `WorkflowContextImpl.external`: look up the registered configuration,
flush the result buffer in its own READ COMMITTED transaction and clear it,
consult `checkOperationOutput`, then run the user function — under the retry
loop when `retriesAllowed`, exactly once otherwise — and record the single
outcome (`recordOperationOutput` on success; `recordOperationError` with
`DBOSError("Communicator reached maximum retries.")` on exhaustion, or with
the thrown error when retries are not allowed). -/
def externalCall (cfgs : List (String × CommConfig)) (name : String)
    (wf : String) (fid : Nat) (oracle : Nat → Except Json Json)
    (buffer : Buffer) (txdb : TxDB) (opdb : OpDB) : ExternalOutcome :=
  match lookupCfg cfgs name with
  | none => ⟨.error (.notRegistered name), txdb, opdb, buffer, 0, []⟩
  | some cfg =>
    match flushResultBuffer wf buffer txdb with
    | .error e => ⟨.error e, txdb, opdb, buffer, 0, []⟩
    | .ok txdb1 =>
      match checkOperationOutput opdb wf fid with
      | .error e => ⟨.error e, txdb1, opdb, [], 0, []⟩
      | .ok (some v) => ⟨.ok v, txdb1, opdb, [], 0, []⟩
      | .ok none =>
        if cfg.retriesAllowed then
          match retryExec oracle cfg.backoffRate cfg.maxAttempts 0 cfg.intervalSeconds [] with
          | (some v, calls, sleeps) =>
            match recordOperationOutput opdb wf fid v with
            | .error e => ⟨.error e, txdb1, opdb, [], calls, sleeps⟩
            | .ok opdb1 => ⟨.ok v, txdb1, opdb1, [], calls, sleeps⟩
          | (none, calls, sleeps) =>
            match recordOperationError opdb wf fid (serializeErr .maxRetries) with
            | .error e => ⟨.error e, txdb1, opdb, [], calls, sleeps⟩
            | .ok opdb1 => ⟨.error .maxRetries, txdb1, opdb1, [], calls, sleeps⟩
        else
          match oracle 0 with
          | .ok v =>
            match recordOperationOutput opdb wf fid v with
            | .error e => ⟨.error e, txdb1, opdb, [], 1, []⟩
            | .ok opdb1 => ⟨.ok v, txdb1, opdb1, [], 1, []⟩
          | .error e =>
            match recordOperationError opdb wf fid e with
            | .error e2 => ⟨.error e2, txdb1, opdb, [], 1, []⟩
            | .ok opdb1 => ⟨.error (.user e), txdb1, opdb1, [], 1, []⟩

/-- A child-workflow launch as performed by
`WorkflowContextImpl.childWorkflow`. -/
structure ChildLaunch where
  childUUID : String
  funcId : Nat
  nextCounter : Nat
deriving DecidableEq, Repr

/-- `WorkflowContextImpl.childWorkflow`: draw `funcId` from the counter via
`functionIDGetIncrement`, then assign the child the deterministic id
`workflowUUID + "-" + funcId`; `debugMode` only selects which executor entry
point receives the same (id, parent id, funcId) triple. -/
def childWorkflow (debugMode : Bool) (workflowUUID : String) (functionID : Nat) : ChildLaunch :=
  let (funcId, next) := functionIDGetIncrement functionID
  let childUUID : String := workflowUUID ++ "-" ++ toString funcId
  if debugMode then ⟨childUUID, funcId, next⟩ else ⟨childUUID, funcId, next⟩

/-- `WorkflowContextDebug.startChildWorkflow` (workflow-function branch):
same counter draw and the same deterministic child id. -/
def debugStartChildWorkflow (workflowUUID : String) (functionID : Nat) : ChildLaunch :=
  let (funcId, next) := functionIDGetIncrement functionID
  let childUUID : String := workflowUUID ++ "-" ++ toString funcId
  ⟨childUUID, funcId, next⟩

/-- The `StatusString` constant of `src/workflow.ts`, as the list of its
field values. -/
def StatusString : List String := ["PENDING", "SUCCESS", "ERROR"]

/-- A JavaScript value as seen by `WorkflowContextDebug.transaction`:
`undefined` is distinct from every JSON value. -/
inductive DVal where
  | undef
  | val (j : Json)
deriving DecidableEq, Repr

/-- JavaScript falsiness of a parsed JSON value (`!check.output`). -/
def jsFalsy : Json → Bool
  | .null => true
  | .bool b => !b
  | .num n => n == 0
  | .str s => s == ""

/-- `WorkflowContextDebug.transaction` at function id `fid`: replay a
transactional step from `dbos.transaction_outputs`.  Returns the call's
outcome and whether the user's transaction function was re-executed.
The user transaction (run only when a debug proxy is configured) is modelled
by its outcome `user` (`.ok dv` returns the value `dv`, `.error e` throws).
With no recorded row, `checkExecution` throws `DBOSDebuggerError` inside the
wrapped transaction, the outer catch stores it in `result`, and the final
`JSON.stringify(check.output)` then dereferences the still-unassigned
`check`, raising a JavaScript `TypeError`. -/
def debugTransaction (debugProxy : Bool) (db : TxDB) (wf : String) (fid : Nat)
    (user : Except Json DVal) : Except DBOSErr DVal × Bool :=
  match lookupTx db wf fid with
  | none => (.error .jsTypeError, false)
  | some row =>
    if row.error = Json.null then
      if !debugProxy then
        (.ok (.val row.output), false)
      else
        match user with
        | .error _ => (.ok (.val row.output), true)
        | .ok dv =>
          if dv = .undef ∧ jsFalsy row.output then (.ok .undef, true)
          else (.ok (.val row.output), true)
    else
      (.error (.user row.error), debugProxy)

/-- The value a replay of a recorded row yields: the recorded output, or the
deserialized recorded error, thrown. -/
def replayOutcome (row : TxRow) : Except DBOSErr Json :=
  if row.error = Json.null then .ok row.output else .error (.user row.error)

/-- The durable row a first (winning) non-read-only execution leaves behind. -/
def rowOfAttempt (a : Attempt) : TxRow :=
  match a.user with
  | .ok v => ⟨v, Json.null, a.snap, some a.txid⟩
  | .error e => ⟨Json.null, e, a.snap, none⟩

/-- A user outcome whose thrown error is a serialize-error envelope: such an
envelope never serializes to the JSON literal `null`. -/
def validUserOutcome : Except Json Json → Prop
  | .ok _ => True
  | .error e => e ≠ Json.null

lemma replayOutcome_rowOfAttempt (a : Attempt) (hv : validUserOutcome a.user) :
    replayOutcome (rowOfAttempt a) = outcomeOf a.user := by
  cases h : a.user with
  | ok v => simp [replayOutcome, rowOfAttempt, outcomeOf, h]
  | error e =>
    rw [h] at hv
    simp [replayOutcome, rowOfAttempt, outcomeOf, h, validUserOutcome] at hv ⊢
    intro hc
    exact absurd hc hv

lemma lookupTx_append_left {db rest : TxDB} {wf : String} {fid : Nat} {row : TxRow}
    (h : lookupTx db wf fid = some row) :
    lookupTx (db ++ rest) wf fid = some row := by
  unfold lookupTx at h ⊢
  rw [List.find?_append]
  rcases hf : db.find? (fun e => decide (e.1 = (wf, fid))) with _ | e
  · simp [hf] at h
  · simp [hf] at h ⊢; exact h

lemma lookupTx_append_right {db rest : TxDB} {wf : String} {fid : Nat}
    (h : lookupTx db wf fid = none) :
    lookupTx (db ++ rest) wf fid = lookupTx rest wf fid := by
  unfold lookupTx at h ⊢
  rw [List.find?_append]
  rcases hf : db.find? (fun e => decide (e.1 = (wf, fid))) with _ | e
  · simp [hf]
  · simp [hf] at h

lemma lookupTx_recordGuardedOutput (db : TxDB) (wf : String) (fid : Nat)
    (v : Json) (t : String) :
    lookupTx (recordGuardedOutput db wf fid v t) wf fid
      = (lookupTx db wf fid).map (fun r => { r with output := v, txn_id := some t }) := by
  induction db with
  | nil => rfl
  | cons e db ih =>
    obtain ⟨k, r⟩ := e
    by_cases hk : k = (wf, fid)
    · subst hk
      simp [lookupTx, recordGuardedOutput, List.find?_cons_of_pos]
    · simpa [lookupTx, recordGuardedOutput, List.find?_cons_of_neg, hk] using ih

lemma lookupTx_recordGuardedError (db : TxDB) (wf : String) (fid : Nat) (err : Json) :
    lookupTx (recordGuardedError db wf fid err) wf fid
      = (lookupTx db wf fid).map (fun r => { r with error := err }) := by
  induction db with
  | nil => rfl
  | cons e db ih =>
    obtain ⟨k, r⟩ := e
    by_cases hk : k = (wf, fid)
    · subst hk
      simp [lookupTx, recordGuardedError, List.find?_cons_of_pos]
    · simpa [lookupTx, recordGuardedError, List.find?_cons_of_neg, hk] using ih

lemma flushResultBuffer_ok_of_fresh {wf : String} {buf : Buffer} {db : TxDB}
    (h : ∀ e ∈ buf, lookupTx db wf e.1 = none) :
    flushResultBuffer wf buf db
      = .ok (db ++ buf.map (fun e => ((wf, e.1), ⟨e.2.output, Json.null, e.2.txn_snapshot, none⟩))) := by
  unfold flushResultBuffer
  cases buf with
  | nil => simp
  | cons e rest =>
    have hno : ((e :: rest).any fun x => (lookupTx db wf x.1).isSome) = false := by
      rw [List.any_eq_false]
      intro x hx
      rw [h x hx]
      simp
    simp [hno]

lemma lookupTx_singleton (wf : String) (fid : Nat) (r : TxRow) :
    lookupTx [((wf, fid), r)] wf fid = some r := by
  simp [lookupTx, List.find?]

lemma checkExecution_of_some {db : TxDB} {wf : String} {fid : Nat} {row : TxRow}
    (snap : String) (h : lookupTx db wf fid = some row) :
    checkExecution db wf fid snap =
      if row.error = Json.null then .ok (.recorded row.output snap)
      else .error (.user row.error) := by
  unfold checkExecution
  rw [h]

lemma checkExecution_of_none {db : TxDB} {wf : String} {fid : Nat}
    (snap : String) (h : lookupTx db wf fid = none) :
    checkExecution db wf fid snap = .ok (.noRecord snap) := by
  unfold checkExecution
  rw [h]

/-- A commit attempt over a database that already holds the row replays it:
the recorded output is returned or the recorded error is thrown, and the
user function is not invoked. -/
lemma runCommitAttempt_replay {db : TxDB} {buffer : Buffer} {wf : String} {fid : Nat}
    {row : TxRow} (ro : Bool) (snap txid : String) (user : Except Json Json)
    (h : lookupTx db wf fid = some row)
    (hfresh : ∀ e ∈ buffer, lookupTx db wf e.1 = none) :
    (runCommitAttempt wf fid ro snap txid user db buffer).res = replayOutcome row ∧
    (runCommitAttempt wf fid ro snap txid user db buffer).invoked = false := by
  unfold runCommitAttempt wrappedTransaction
  rw [checkExecution_of_some snap h]
  by_cases he : row.error = Json.null
  · simp [he, replayOutcome]
  · simp [he, replayOutcome, flushResultBuffer_ok_of_fresh hfresh]

/-- A commit attempt with an empty buffer over a database that already holds
the row also leaves that row in place (re-recording a replayed error writes
back the identical error value). -/
lemma stepAttempt_replay {db : TxDB} {wf : String} {fid : Nat} {row : TxRow}
    (ro : Bool) (snap txid : String) (user : Except Json Json)
    (h : lookupTx db wf fid = some row) :
    (runCommitAttempt wf fid ro snap txid user db []).res = replayOutcome row ∧
    (runCommitAttempt wf fid ro snap txid user db []).invoked = false ∧
    lookupTx (runCommitAttempt wf fid ro snap txid user db []).db wf fid = some row := by
  unfold runCommitAttempt wrappedTransaction
  rw [checkExecution_of_some snap h]
  by_cases he : row.error = Json.null
  · simp [he, replayOutcome, h]
  · have hflush : flushResultBuffer wf [] db = .ok db := by simp [flushResultBuffer]
    simp only [he, if_false, replayOutcome, hflush, serializeErr]
    simp [he, lookupTx_recordGuardedError, h]

/-- A non-read-only commit attempt with an empty buffer over a database
without the row invokes the user function exactly once, yields its outcome,
and durably installs the corresponding row. -/
lemma stepAttempt_first {db : TxDB} {wf : String} {fid : Nat}
    (snap txid : String) (user : Except Json Json)
    (h : lookupTx db wf fid = none) :
    (runCommitAttempt wf fid false snap txid user db []).res = outcomeOf user ∧
    (runCommitAttempt wf fid false snap txid user db []).invoked = true ∧
    lookupTx (runCommitAttempt wf fid false snap txid user db []).db wf fid
      = some (rowOfAttempt ⟨false, user, snap, txid⟩) := by
  have hbuf : guardOperation ([] : Buffer) fid snap = [(fid, ⟨Json.null, snap⟩)] := rfl
  have hfresh : ∀ e ∈ guardOperation ([] : Buffer) fid snap, lookupTx db wf e.1 = none := by
    intro e he
    rw [hbuf] at he
    simp at he
    subst he
    exact h
  have hflush := flushResultBuffer_ok_of_fresh hfresh
  rw [hbuf] at hflush
  simp only [List.map_cons, List.map_nil] at hflush
  have hg : lookupTx (db ++ [((wf, fid), ⟨Json.null, Json.null, snap, none⟩)]) wf fid
      = some ⟨Json.null, Json.null, snap, none⟩ := by
    rw [lookupTx_append_right h, lookupTx_singleton]
  unfold runCommitAttempt wrappedTransaction
  rw [checkExecution_of_none snap h]
  cases user with
  | ok v =>
    simp only [hbuf, hflush, Bool.false_eq_true, if_false]
    simp only [outcomeOf, rowOfAttempt]
    refine ⟨trivial, trivial, ?_⟩
    rw [lookupTx_recordGuardedOutput, hg]
    rfl
  | error e =>
    simp only [hbuf, hflush, Bool.false_eq_true, if_false, serializeErr]
    simp only [outcomeOf, rowOfAttempt]
    refine ⟨trivial, trivial, ?_⟩
    rw [lookupTx_recordGuardedError, hg]
    rfl

lemma geom_cons {α : Type} [CommMonoid α] (I b : α) (k : Nat) :
    I :: (List.range k).map (fun j => I * b * b ^ j)
      = (List.range (k + 1)).map (fun j => I * b ^ j) := by
  rw [List.range_succ_eq_map, List.map_cons, List.map_map]
  refine congrArg₂ List.cons (by simp) ?_
  apply List.map_congr_left
  intro j hj
  show I * b * b ^ j = I * b ^ (j + 1)
  rw [pow_succ, mul_comm (b ^ j) b, ← mul_assoc]

/-- The retry loop of `WorkflowContextImpl.transaction`, run against `k`
serialization failures followed by a committing iteration: every failure
sleeps the current wait (`wait * 2 ^ i` on the i-th retry) and the final
iteration decides the outcome. -/
lemma transactionLoopAux_serFail_commit (wf : String) (fid : Nat) (ro : Bool)
    (snap txid : String) (user : Except Json Json) :
    ∀ (k : Nat) (db : TxDB) (buf : Buffer) (wait : Nat) (sleeps : List Nat),
    transactionLoopAux wf fid ro snap txid user
        (List.replicate k .serFail ++ [.commit]) db buf wait sleeps
      = ⟨some (runCommitAttempt wf fid ro snap txid user db buf).res,
         (runCommitAttempt wf fid ro snap txid user db buf).db,
         (runCommitAttempt wf fid ro snap txid user db buf).buffer,
         sleeps ++ (List.range k).map (fun i => wait * 2 ^ i),
         if (runCommitAttempt wf fid ro snap txid user db buf).invoked then 1 else 0⟩ := by
  intro k
  induction k with
  | zero => intro db buf wait sleeps; simp [transactionLoopAux]
  | succ k ih =>
    intro db buf wait sleeps
    rw [List.replicate_succ, List.cons_append]
    rw [show transactionLoopAux wf fid ro snap txid user
          (.serFail :: (List.replicate k .serFail ++ [.commit])) db buf wait sleeps
        = transactionLoopAux wf fid ro snap txid user
          (List.replicate k .serFail ++ [.commit]) db buf (wait * 2) (sleeps ++ [wait])
        from rfl]
    rw [ih]
    refine congrArg₂ (fun s i => LoopOutcome.mk
      (some (runCommitAttempt wf fid ro snap txid user db buf).res)
      (runCommitAttempt wf fid ro snap txid user db buf).db
      (runCommitAttempt wf fid ro snap txid user db buf).buffer s i) ?_ rfl
    rw [List.append_assoc, List.singleton_append, geom_cons]

/-- The same loop against serialization failures only: it never finishes and
never invokes the user function. -/
lemma transactionLoopAux_serFail_all (wf : String) (fid : Nat) (ro : Bool)
    (snap txid : String) (user : Except Json Json) :
    ∀ (k : Nat) (db : TxDB) (buf : Buffer) (wait : Nat) (sleeps : List Nat),
    transactionLoopAux wf fid ro snap txid user (List.replicate k .serFail) db buf wait sleeps
      = ⟨none, db, buf, sleeps ++ (List.range k).map (fun i => wait * 2 ^ i), 0⟩ := by
  intro k
  induction k with
  | zero => intro db buf wait sleeps; simp [transactionLoopAux]
  | succ k ih =>
    intro db buf wait sleeps
    rw [List.replicate_succ]
    rw [show transactionLoopAux wf fid ro snap txid user
          (.serFail :: List.replicate k .serFail) db buf wait sleeps
        = transactionLoopAux wf fid ro snap txid user
          (List.replicate k .serFail) db buf (wait * 2) (sleeps ++ [wait])
        from rfl]
    rw [ih]
    refine congrArg₂ (fun s i => LoopOutcome.mk none db buf s i) ?_ rfl
    rw [List.append_assoc, List.singleton_append, geom_cons]

lemma retryExec_calls_le (oracle : Nat → Except Json Json) (b : Rat) :
    ∀ (fuel calls : Nat) (I : Rat) (acc : List Rat),
    (retryExec oracle b fuel calls I acc).2.1 ≤ calls + fuel := by
  intro fuel
  induction fuel with
  | zero => intro calls I acc; simp [retryExec]
  | succ r ih =>
    intro calls I acc
    cases h : oracle calls with
    | ok v => simp [retryExec, h]
    | error e =>
      by_cases hr : r = 0
      · simp [retryExec, h, hr]
      · simp only [retryExec, h, hr, if_false]
        calc (retryExec oracle b r (calls + 1) (I * b) (acc ++ [I])).2.1
            ≤ calls + 1 + r := ih (calls + 1) (I * b) (acc ++ [I])
          _ = calls + (r + 1) := by omega

lemma retryExec_calls_lower (oracle : Nat → Except Json Json) (b : Rat) :
    ∀ (fuel calls : Nat) (I : Rat) (acc : List Rat), 1 ≤ fuel →
    calls + 1 ≤ (retryExec oracle b fuel calls I acc).2.1 := by
  intro fuel
  induction fuel with
  | zero => intro calls I acc hf; omega
  | succ r ih =>
    intro calls I acc _
    cases h : oracle calls with
    | ok v => simp [retryExec, h]
    | error e =>
      by_cases hr : r = 0
      · simp [retryExec, h, hr]
      · simp only [retryExec, h, hr, if_false]
        calc calls + 1 ≤ calls + 1 + 1 := by omega
          _ ≤ (retryExec oracle b r (calls + 1) (I * b) (acc ++ [I])).2.1 :=
              ih (calls + 1) (I * b) (acc ++ [I]) (by omega)

lemma retryExec_sleeps (oracle : Nat → Except Json Json) (b : Rat) :
    ∀ (fuel calls : Nat) (I : Rat) (acc : List Rat),
    (retryExec oracle b fuel calls I acc).2.2
      = acc ++ (List.range ((retryExec oracle b fuel calls I acc).2.1 - calls - 1)).map
          (fun j => I * b ^ j) := by
  intro fuel
  induction fuel with
  | zero => intro calls I acc; simp [retryExec]
  | succ r ih =>
    intro calls I acc
    cases h : oracle calls with
    | ok v => simp [retryExec, h]
    | error e =>
      by_cases hr : r = 0
      · simp [retryExec, h, hr]
      · simp only [retryExec, h, hr, if_false]
        rw [ih (calls + 1) (I * b) (acc ++ [I])]
        have hlow := retryExec_calls_lower oracle b r (calls + 1) (I * b) (acc ++ [I]) (by omega)
        rw [List.append_assoc, List.singleton_append]
        refine congrArg (fun l => acc ++ l) ?_
        rw [geom_cons]
        refine congrArg (fun n => (List.range n).map (fun j => I * b ^ j)) ?_
        omega

lemma retryExec_none_calls (oracle : Nat → Except Json Json) (b : Rat) :
    ∀ (fuel calls : Nat) (I : Rat) (acc : List Rat),
    (retryExec oracle b fuel calls I acc).1 = none →
    (retryExec oracle b fuel calls I acc).2.1 = calls + fuel := by
  intro fuel
  induction fuel with
  | zero => intro calls I acc _; simp [retryExec]
  | succ r ih =>
    intro calls I acc hn
    cases h : oracle calls with
    | ok v => rw [show retryExec oracle b (r + 1) calls I acc = (some v, calls + 1, acc)
        from by simp [retryExec, h]] at hn; cases hn
    | error e =>
      by_cases hr : r = 0
      · simp [retryExec, h, hr]
      · simp only [retryExec, h, hr, if_false] at hn ⊢
        rw [ih (calls + 1) (I * b) (acc ++ [I]) hn]
        omega

lemma bufLookup_bufSet (b : Buffer) (fid : Nat) (r : BufferedResult) :
    bufLookup (bufSet b fid r) fid = some r := by
  unfold bufLookup bufSet
  rw [List.find?_append]
  have hn : (b.filter (fun e => decide (e.1 ≠ fid))).find? (fun e => decide (e.1 = fid)) = none := by
    rw [List.find?_eq_none]
    intro x hx
    have hfil := List.of_mem_filter hx
    simp at hfil ⊢
    exact hfil
  rw [hn]
  simp [List.find?]

lemma mem_bufSet {b : Buffer} {fid : Nat} {r : BufferedResult} {e : Nat × BufferedResult}
    (h : e ∈ bufSet b fid r) : e ∈ b ∨ e = (fid, r) := by
  unfold bufSet at h
  rcases List.mem_append.mp h with h1 | h2
  · exact Or.inl (List.mem_of_mem_filter h1)
  · simp at h2
    exact Or.inr h2

/-- Replay executions over a database that holds the row all yield the
recorded outcome without invoking the user function, and keep the row. -/
lemma runTrace_replay (wf : String) (fid : Nat) (row : TxRow) (as : List Attempt) :
    ∀ db : TxDB, lookupTx db wf fid = some row →
    (runTrace wf fid as db).1 = as.map (fun _ => (replayOutcome row, false)) := by
  induction as with
  | nil => intro db _; simp [runTrace]
  | cons b bs ih =>
    intro db h
    obtain ⟨h1, h2, h3⟩ := stepAttempt_replay b.readOnly b.snap b.txid b.user h
    simp only [runTrace, List.map_cons]
    refine congrArg₂ List.cons ?_ (ih _ h3)
    rw [h1, h2]

/-- C1.  For every workflow id and function id, if `dbos.transaction_outputs`
already holds a record for the pair, a call to
`WorkflowContextImpl.transaction` at that counter value replays it — the
recorded output is returned when the recorded error field JSON-decodes to
null, and otherwise the deserialized recorded error is thrown — and the
user's transaction function is never invoked during the call.  Quantified
over any number `k` of leading retriable serialization failures, any
registered configuration, and any result buffer whose entries are not yet
durable. -/
theorem claim1_transaction_replays_recorded
    (cfgs : List (String × TxConfig)) (name : String) (cfg : TxConfig)
    (wf : String) (fid : Nat) (snap txid : String) (user : Except Json Json)
    (k : Nat) (db : TxDB) (buffer : Buffer) (row : TxRow)
    (hcfg : lookupCfg cfgs name = some cfg)
    (hrow : lookupTx db wf fid = some row)
    (hfresh : ∀ e ∈ buffer, lookupTx db wf e.1 = none) :
    (transactionCall cfgs name wf fid snap txid user
        (List.replicate k .serFail ++ [.commit]) db buffer).finished
      = some (replayOutcome row) ∧
    (transactionCall cfgs name wf fid snap txid user
        (List.replicate k .serFail ++ [.commit]) db buffer).invocations = 0 := by
  obtain ⟨h1, h2⟩ := runCommitAttempt_replay (cfg.readOnly.getD false) snap txid user hrow hfresh
  unfold transactionCall
  rw [hcfg]
  simp only [transactionLoopAux_serFail_commit, h1, h2]
  simp

theorem claim1_transaction_replays_recorded_witness :
    (transactionCall [("t", ⟨none⟩)] "t" "W" 0 "s" "x" (.ok (Json.num 1))
        (List.replicate 1 .serFail ++ [.commit])
        [(("W", 0), ⟨Json.num 7, Json.null, "s0", some "tx"⟩)] []).finished
      = some (replayOutcome ⟨Json.num 7, Json.null, "s0", some "tx"⟩) ∧
    (transactionCall [("t", ⟨none⟩)] "t" "W" 0 "s" "x" (.ok (Json.num 1))
        (List.replicate 1 .serFail ++ [.commit])
        [(("W", 0), ⟨Json.num 7, Json.null, "s0", some "tx"⟩)] []).invocations = 0 :=
  claim1_transaction_replays_recorded [("t", ⟨none⟩)] "t" ⟨none⟩ "W" 0 "s" "x"
    (.ok (Json.num 1)) 1 [(("W", 0), ⟨Json.num 7, Json.null, "s0", some "tx"⟩)] []
    ⟨Json.num 7, Json.null, "s0", some "tx"⟩ (by decide) (by decide) (by simp)

/-- C2, counterexample.  Two executions of the same read-only transactional
step with the same (workflow id, function id) — the second replaying after a
crash that lost the never-flushed buffer, exactly the code's read-only
trade-off — both invoke the user code: the invocation count of the trace is
2, refuting "the user code ... is invoked at most once across all
executions". -/
theorem claim2_counterexample_readonly_invoked_twice :
    (((runTrace "W" 0 [⟨true, .ok (Json.num 1), "s", "x"⟩,
        ⟨true, .ok (Json.num 1), "s", "x"⟩] []).1.filter (fun r => r.2)).length = 2) ∧
    ¬ (((runTrace "W" 0 [⟨true, .ok (Json.num 1), "s", "x"⟩,
        ⟨true, .ok (Json.num 1), "s", "x"⟩] []).1.filter (fun r => r.2)).length ≤ 1) := by
  decide

/-- C2, amended.  For a non-read-only transactional step, across any
sequence of executions with the same (workflow id, function id) — concurrent
duplicates and crash replays included, each execution being one committed
database transaction — the user code runs exactly in the first execution,
its outcome is durably recorded, and every later execution replays the
winner's recorded outcome without invoking the user code; in particular the
user code is invoked at most once.  (The winner's thrown errors are
serialize-error envelopes, which never serialize to JSON null.) -/
theorem claim2_at_most_once_nonreadonly
    (wf : String) (fid : Nat) (a : Attempt) (as : List Attempt) (db0 : TxDB)
    (h0 : lookupTx db0 wf fid = none)
    (hro : a.readOnly = false)
    (hv : validUserOutcome a.user) :
    (runTrace wf fid (a :: as) db0).1
      = (outcomeOf a.user, true) :: as.map (fun _ => (outcomeOf a.user, false)) ∧
    ((runTrace wf fid (a :: as) db0).1.filter (fun r => r.2)).length ≤ 1 := by
  obtain ⟨h1, h2, h3⟩ := stepAttempt_first a.snap a.txid a.user h0
  have hrow : replayOutcome (rowOfAttempt ⟨false, a.user, a.snap, a.txid⟩) = outcomeOf a.user :=
    replayOutcome_rowOfAttempt ⟨false, a.user, a.snap, a.txid⟩ hv
  have hmain : (runTrace wf fid (a :: as) db0).1
      = (outcomeOf a.user, true) :: as.map (fun _ => (outcomeOf a.user, false)) := by
    simp only [runTrace, hro, List.map_cons]
    refine congrArg₂ List.cons (by rw [h1, h2]) ?_
    rw [runTrace_replay wf fid (rowOfAttempt ⟨false, a.user, a.snap, a.txid⟩) as _ h3, hrow]
  refine ⟨hmain, ?_⟩
  rw [hmain]
  have hz : ∀ l : List Attempt,
      ((l.map (fun _ => (outcomeOf a.user, false))).filter (fun r => r.2)).length = 0 := by
    intro l
    induction l with
    | nil => simp
    | cons x xs ih => simp [ih]
  simp [List.filter_cons, hz as]

theorem claim2_at_most_once_nonreadonly_witness :
    (runTrace "W" 0 [⟨false, .ok (Json.num 1), "s", "x"⟩,
        ⟨false, .ok (Json.num 2), "s2", "x2"⟩] []).1
      = (outcomeOf (.ok (Json.num 1)), true)
        :: [(⟨false, .ok (Json.num 2), "s2", "x2"⟩ : Attempt)].map
            (fun _ => (outcomeOf (.ok (Json.num 1)), false)) ∧
    ((runTrace "W" 0 [⟨false, .ok (Json.num 1), "s", "x"⟩,
        ⟨false, .ok (Json.num 2), "s2", "x2"⟩] []).1.filter (fun r => r.2)).length ≤ 1 :=
  claim2_at_most_once_nonreadonly "W" 0 ⟨false, .ok (Json.num 1), "s", "x"⟩
    [⟨false, .ok (Json.num 2), "s2", "x2"⟩] [] (by decide) rfl trivial

lemma checkOperationOutput_of_none {opdb : OpDB} {wf : String} {fid : Nat}
    (h : lookupOp opdb wf fid = none) :
    checkOperationOutput opdb wf fid = .ok none := by
  unfold checkOperationOutput
  rw [h]

lemma recordOperationOutput_of_absent {opdb : OpDB} {wf : String} {fid : Nat}
    (v : Json) (h : lookupOp opdb wf fid = none) :
    recordOperationOutput opdb wf fid v = .ok (opdb ++ [((wf, fid), ⟨v, Json.null⟩)]) := by
  unfold recordOperationOutput
  rw [h]

lemma recordOperationError_of_absent {opdb : OpDB} {wf : String} {fid : Nat}
    (err : Json) (h : lookupOp opdb wf fid = none) :
    recordOperationError opdb wf fid err = .ok (opdb ++ [((wf, fid), ⟨Json.null, err⟩)]) := by
  unfold recordOperationError
  rw [h]

lemma lookupOp_append_singleton {opdb : OpDB} {wf : String} {fid : Nat} (r : OpRow)
    (h : lookupOp opdb wf fid = none) :
    lookupOp (opdb ++ [((wf, fid), r)]) wf fid = some r := by
  unfold lookupOp at h ⊢
  rw [List.find?_append]
  rcases hf : opdb.find? (fun e => decide (e.1 = (wf, fid))) with _ | e
  · simp [hf, List.find?]
  · simp [hf] at h

/-- C3, counterexample.  A communicator with `maxAttempts = 2` whose
invocations all fail: its only two failures are the first and the last
failure, so the claim predicts no sleep at all; the code nevertheless sleeps
`intervalSeconds` (here 1) once — immediately after the first failure,
before the second attempt. -/
theorem claim3_counterexample_sleeps_after_first_failure :
    (externalCall [("c", ⟨true, 1, 2, 2⟩)] "c" "W" 0
        (fun _ => .error (Json.str "boom")) [] [] []).sleeps = [1] ∧
    (externalCall [("c", ⟨true, 1, 2, 2⟩)] "c" "W" 0
        (fun _ => .error (Json.str "boom")) [] [] []).invocations = 2 ∧
    (externalCall [("c", ⟨true, 1, 2, 2⟩)] "c" "W" 0
        (fun _ => .error (Json.str "boom")) [] [] []).sleeps ≠ [] := by
  decide

/-- C3, amended.  For a non-transactional step with retries allowed and no
recorded outcome, `WorkflowContextImpl.external` invokes the user function at
most `maxAttempts` times and sleeps `intervalSeconds * backoffRate ^ i`
between consecutive attempts i and i+1: one sleep after every failure except
the last attempt's — so it does sleep after the first failure when another
attempt follows, and never sleeps after the final failure. -/
theorem claim3_retry_bound_and_backoff
    (cfgs : List (String × CommConfig)) (name : String) (cfg : CommConfig)
    (wf : String) (fid : Nat) (oracle : Nat → Except Json Json)
    (buffer : Buffer) (txdb txdb1 : TxDB) (opdb : OpDB)
    (hcfg : lookupCfg cfgs name = some cfg)
    (hra : cfg.retriesAllowed = true)
    (hflush : flushResultBuffer wf buffer txdb = .ok txdb1)
    (hop : lookupOp opdb wf fid = none) :
    (externalCall cfgs name wf fid oracle buffer txdb opdb).invocations ≤ cfg.maxAttempts ∧
    (externalCall cfgs name wf fid oracle buffer txdb opdb).sleeps
      = (List.range ((externalCall cfgs name wf fid oracle buffer txdb opdb).invocations - 1)).map
          (fun j => cfg.intervalSeconds * cfg.backoffRate ^ j) := by
  have hle := retryExec_calls_le oracle cfg.backoffRate cfg.maxAttempts 0 cfg.intervalSeconds []
  have hsl := retryExec_sleeps oracle cfg.backoffRate cfg.maxAttempts 0 cfg.intervalSeconds []
  unfold externalCall
  rw [hcfg, hflush, checkOperationOutput_of_none hop]
  simp only [hra, if_true]
  rcases hr : retryExec oracle cfg.backoffRate cfg.maxAttempts 0 cfg.intervalSeconds []
    with ⟨res, calls, sleeps⟩
  rw [hr] at hle hsl
  simp only at hle hsl
  cases res with
  | some v =>
    dsimp only
    rw [recordOperationOutput_of_absent v hop]
    dsimp only
    exact ⟨by omega, by rw [hsl]; simp⟩
  | none =>
    dsimp only
    rw [recordOperationError_of_absent (serializeErr .maxRetries) hop]
    dsimp only
    exact ⟨by omega, by rw [hsl]; simp⟩

theorem claim3_retry_bound_and_backoff_witness :
    (externalCall [("c", ⟨true, 1, 5, 2⟩)] "c" "W" 0
        (fun i => if i < 2 then .error (Json.str "boom") else .ok (Json.num 9))
        [] [] []).invocations ≤ (5 : Nat) ∧
    (externalCall [("c", ⟨true, 1, 5, 2⟩)] "c" "W" 0
        (fun i => if i < 2 then .error (Json.str "boom") else .ok (Json.num 9))
        [] [] []).sleeps
      = (List.range ((externalCall [("c", ⟨true, 1, 5, 2⟩)] "c" "W" 0
            (fun i => if i < 2 then .error (Json.str "boom") else .ok (Json.num 9))
            [] [] []).invocations - 1)).map (fun j => (1 : Rat) * (2 : Rat) ^ j) :=
  claim3_retry_bound_and_backoff [("c", ⟨true, 1, 5, 2⟩)] "c" ⟨true, 1, 5, 2⟩ "W" 0
    (fun i => if i < 2 then .error (Json.str "boom") else .ok (Json.num 9))
    [] [] [] [] (by decide) rfl (by decide) (by decide)

/-- C4.  With no outcome recorded yet, `WorkflowContextImpl.external` records
exactly one outcome for its (workflow id, function id): when some invocation
succeeds the result is recorded via `recordOperationOutput` and returned;
when all `maxAttempts` invocations fail, the
`DBOSError("Communicator reached maximum retries.")` error is constructed,
recorded via `recordOperationError`, and thrown; and when retries are not
allowed the user function runs exactly once, a thrown error being recorded
and rethrown. -/
theorem claim4_external_records_single_outcome
    (cfgs : List (String × CommConfig)) (name : String) (cfg : CommConfig)
    (wf : String) (fid : Nat) (oracle : Nat → Except Json Json)
    (buffer : Buffer) (txdb txdb1 : TxDB) (opdb : OpDB)
    (hcfg : lookupCfg cfgs name = some cfg)
    (hflush : flushResultBuffer wf buffer txdb = .ok txdb1)
    (hop : lookupOp opdb wf fid = none) :
    (cfg.retriesAllowed = true → ∀ (v : Json) (calls : Nat) (sleeps : List Rat),
      retryExec oracle cfg.backoffRate cfg.maxAttempts 0 cfg.intervalSeconds [] =
          (some v, calls, sleeps) →
      (externalCall cfgs name wf fid oracle buffer txdb opdb).res = .ok v ∧
      lookupOp (externalCall cfgs name wf fid oracle buffer txdb opdb).opdb wf fid
        = some ⟨v, Json.null⟩) ∧
    (cfg.retriesAllowed = true → ∀ (calls : Nat) (sleeps : List Rat),
      retryExec oracle cfg.backoffRate cfg.maxAttempts 0 cfg.intervalSeconds [] =
          (none, calls, sleeps) →
      (externalCall cfgs name wf fid oracle buffer txdb opdb).res = .error .maxRetries ∧
      lookupOp (externalCall cfgs name wf fid oracle buffer txdb opdb).opdb wf fid
        = some ⟨Json.null, serializeErr .maxRetries⟩ ∧
      (externalCall cfgs name wf fid oracle buffer txdb opdb).invocations = cfg.maxAttempts) ∧
    (cfg.retriesAllowed = false →
      (∀ v : Json, oracle 0 = .ok v →
        (externalCall cfgs name wf fid oracle buffer txdb opdb).res = .ok v ∧
        lookupOp (externalCall cfgs name wf fid oracle buffer txdb opdb).opdb wf fid
          = some ⟨v, Json.null⟩ ∧
        (externalCall cfgs name wf fid oracle buffer txdb opdb).invocations = 1) ∧
      (∀ e : Json, oracle 0 = .error e →
        (externalCall cfgs name wf fid oracle buffer txdb opdb).res = .error (.user e) ∧
        lookupOp (externalCall cfgs name wf fid oracle buffer txdb opdb).opdb wf fid
          = some ⟨Json.null, e⟩ ∧
        (externalCall cfgs name wf fid oracle buffer txdb opdb).invocations = 1)) := by
  refine ⟨?_, ?_, ?_⟩
  · intro hra v calls sleeps hr
    have heq : externalCall cfgs name wf fid oracle buffer txdb opdb
        = ⟨.ok v, txdb1, opdb ++ [((wf, fid), ⟨v, Json.null⟩)], [], calls, sleeps⟩ := by
      unfold externalCall
      rw [hcfg, hflush, checkOperationOutput_of_none hop]
      simp only [hra, if_true]
      rw [hr]
      dsimp only
      rw [recordOperationOutput_of_absent v hop]
    rw [heq]
    exact ⟨rfl, lookupOp_append_singleton _ hop⟩
  · intro hra calls sleeps hr
    have hcalls := retryExec_none_calls oracle cfg.backoffRate cfg.maxAttempts 0
      cfg.intervalSeconds []
    rw [hr] at hcalls
    have heq : externalCall cfgs name wf fid oracle buffer txdb opdb
        = ⟨.error .maxRetries, txdb1,
           opdb ++ [((wf, fid), ⟨Json.null, serializeErr .maxRetries⟩)], [], calls, sleeps⟩ := by
      unfold externalCall
      rw [hcfg, hflush, checkOperationOutput_of_none hop]
      simp only [hra, if_true]
      rw [hr]
      dsimp only
      rw [recordOperationError_of_absent (serializeErr .maxRetries) hop]
    rw [heq]
    refine ⟨rfl, lookupOp_append_singleton _ hop, ?_⟩
    simpa using hcalls rfl
  · intro hra
    constructor
    · intro v hv
      have heq : externalCall cfgs name wf fid oracle buffer txdb opdb
          = ⟨.ok v, txdb1, opdb ++ [((wf, fid), ⟨v, Json.null⟩)], [], 1, []⟩ := by
        unfold externalCall
        rw [hcfg, hflush, checkOperationOutput_of_none hop]
        simp only [hra, Bool.false_eq_true, if_false]
        rw [hv]
        dsimp only
        rw [recordOperationOutput_of_absent v hop]
      rw [heq]
      exact ⟨rfl, lookupOp_append_singleton _ hop, rfl⟩
    · intro e he
      have heq : externalCall cfgs name wf fid oracle buffer txdb opdb
          = ⟨.error (.user e), txdb1, opdb ++ [((wf, fid), ⟨Json.null, e⟩)], [], 1, []⟩ := by
        unfold externalCall
        rw [hcfg, hflush, checkOperationOutput_of_none hop]
        simp only [hra, Bool.false_eq_true, if_false]
        rw [he]
        dsimp only
        rw [recordOperationError_of_absent e hop]
      rw [heq]
      exact ⟨rfl, lookupOp_append_singleton _ hop, rfl⟩

theorem claim4_external_records_single_outcome_witness :
    (externalCall [("c", ⟨false, 1, 3, 2⟩)] "c" "W" 0
        (fun _ => .error (Json.str "boom")) [] [] []).res = .error (.user (Json.str "boom")) ∧
    lookupOp (externalCall [("c", ⟨false, 1, 3, 2⟩)] "c" "W" 0
        (fun _ => .error (Json.str "boom")) [] [] []).opdb "W" 0
      = some ⟨Json.null, Json.str "boom"⟩ ∧
    (externalCall [("c", ⟨false, 1, 3, 2⟩)] "c" "W" 0
        (fun _ => .error (Json.str "boom")) [] [] []).invocations = 1 :=
  (claim4_external_records_single_outcome [("c", ⟨false, 1, 3, 2⟩)] "c" ⟨false, 1, 3, 2⟩
      "W" 0 (fun _ => .error (Json.str "boom")) [] [] [] []
      (by decide) (by decide) (by decide)).2.2 rfl |>.2 (Json.str "boom") rfl

/-- C5, counterexample.  A result-buffer flush whose single entry would
re-insert exactly the row already stored for ("W", 0) — identical payload —
does not succeed silently: `flushResultBuffer` raises the workflow-conflict
error on any existing key. -/
theorem claim5_counterexample_identical_payload_conflicts :
    ([(0, (⟨Json.null, "s"⟩ : BufferedResult))].map
        (fun e => (("W", e.1), (⟨e.2.output, Json.null, e.2.txn_snapshot, none⟩ : TxRow))))
      = [(("W", 0), ⟨Json.null, Json.null, "s", none⟩)] ∧
    flushResultBuffer "W" [(0, ⟨Json.null, "s"⟩)]
        [(("W", 0), ⟨Json.null, Json.null, "s", none⟩)]
      = .error (.workflowConflict "W") := by
  decide

/-- C5, amended.  The system-database record operations (modelled from the
spec) are equality-tolerant upserts: an identical existing row succeeds
silently and only a divergent payload raises a conflict.  But
`WorkflowContextImpl.flushResultBuffer` is a plain INSERT: it raises the
workflow-conflict error exactly when any buffered key already has a row,
regardless of payload equality. -/
theorem claim5_flush_conflicts_on_any_existing_key :
    (∀ (wf : String) (buf : Buffer) (db : TxDB),
        flushResultBuffer wf buf db = .error (.workflowConflict wf)
          ↔ buf.any (fun e => (lookupTx db wf e.1).isSome) = true) ∧
    (∀ (opdb : OpDB) (wf : String) (fid : Nat) (v : Json),
        lookupOp opdb wf fid = some ⟨v, Json.null⟩ →
        recordOperationOutput opdb wf fid v = .ok opdb) ∧
    (∀ (opdb : OpDB) (wf : String) (fid : Nat) (v : Json) (row : OpRow),
        lookupOp opdb wf fid = some row → row ≠ ⟨v, Json.null⟩ →
        recordOperationOutput opdb wf fid v = .error (.workflowConflict wf)) := by
  refine ⟨?_, ?_, ?_⟩
  · intro wf buf db
    unfold flushResultBuffer
    by_cases hemp : buf.isEmpty
    · have : buf = [] := List.isEmpty_iff.mp hemp
      subst this
      simp
    · rw [if_neg hemp]
      by_cases hany : buf.any (fun e => (lookupTx db wf e.1).isSome) = true
      · simp [hany]
      · simp [hany]
  · intro opdb wf fid v h
    unfold recordOperationOutput
    rw [h]
    simp
  · intro opdb wf fid v row h hne
    unfold recordOperationOutput
    rw [h]
    simp [hne]

theorem claim5_flush_conflicts_on_any_existing_key_witness :
    recordOperationOutput [(("W", 0), ⟨Json.num 4, Json.null⟩)] "W" 0 (Json.num 4)
      = .ok [(("W", 0), ⟨Json.num 4, Json.null⟩)] :=
  claim5_flush_conflicts_on_any_existing_key.2.1
    [(("W", 0), ⟨Json.num 4, Json.null⟩)] "W" 0 (Json.num 4) (by decide)

/-- C6, counterexample.  The retry loop of `WorkflowContextImpl.transaction`
has no retry bound: for every proposed bound N there is a schedule of
retriable serialization failures under which the loop performs more than N
retries (and the error never surfaces), refuting "the number of such
automatic retries is bounded by a policy (at most N retries, after which the
error surfaces to the workflow)". -/
theorem claim6_counterexample_retries_unbounded :
    ¬ ∃ N : Nat, ∀ k : Nat,
      ((transactionCall [("t", ⟨none⟩)] "t" "W" 0 "s" "x" (.ok (Json.num 1))
          (List.replicate k .serFail ++ [.commit]) [] []).sleeps).length ≤ N := by
  rintro ⟨N, h⟩
  have hk := h (N + 1)
  have heq : (transactionCall [("t", ⟨none⟩)] "t" "W" 0 "s" "x" (.ok (Json.num 1))
      (List.replicate (N + 1) .serFail ++ [.commit]) [] []).sleeps
      = (List.range (N + 1)).map (fun i => 1 * 2 ^ i) := by
    unfold transactionCall
    rw [show lookupCfg [("t", (⟨none⟩ : TxConfig))] "t" = some ⟨none⟩ from rfl]
    dsimp only
    rw [transactionLoopAux_serFail_commit]
    simp
  rw [heq] at hk
  simp only [List.length_map, List.length_range] at hk
  omega

/-- C6, amended.  A transactional step whose user-database error is
classified retriable is retried transparently with exponential backoff — the
waits are `1 * 2 ^ i` milliseconds, starting at 1 ms and doubling on each
retry — but the retries are not bounded: after any number k of consecutive
retriable failures the loop is still running (the error has not surfaced),
and it finishes only when an iteration's outcome is not a retriable
serialization error. -/
theorem claim6_serialization_retry_backoff_unbounded
    (cfgs : List (String × TxConfig)) (name : String) (cfg : TxConfig)
    (wf : String) (fid : Nat) (snap txid : String) (user : Except Json Json)
    (k : Nat) (db : TxDB) (buffer : Buffer)
    (hcfg : lookupCfg cfgs name = some cfg) :
    (transactionCall cfgs name wf fid snap txid user
        (List.replicate k .serFail ++ [.commit]) db buffer).sleeps
      = (List.range k).map (fun i => 1 * 2 ^ i) ∧
    ((transactionCall cfgs name wf fid snap txid user
        (List.replicate k .serFail ++ [.commit]) db buffer).finished).isSome = true ∧
    (transactionCall cfgs name wf fid snap txid user
        (List.replicate k .serFail) db buffer).finished = none := by
  unfold transactionCall
  rw [hcfg]
  dsimp only
  rw [transactionLoopAux_serFail_commit, transactionLoopAux_serFail_all]
  simp

theorem claim6_serialization_retry_backoff_unbounded_witness :
    (transactionCall [("t", ⟨none⟩)] "t" "W" 0 "s" "x" (.ok (Json.num 1))
        (List.replicate 3 .serFail ++ [.commit]) [] []).sleeps
      = (List.range 3).map (fun i => 1 * 2 ^ i) ∧
    ((transactionCall [("t", ⟨none⟩)] "t" "W" 0 "s" "x" (.ok (Json.num 1))
        (List.replicate 3 .serFail ++ [.commit]) [] []).finished).isSome = true ∧
    (transactionCall [("t", ⟨none⟩)] "t" "W" 0 "s" "x" (.ok (Json.num 1))
        (List.replicate 3 .serFail) [] []).finished = none :=
  claim6_serialization_retry_backoff_unbounded [("t", ⟨none⟩)] "t" ⟨none⟩ "W" 0 "s" "x"
    (.ok (Json.num 1)) 3 [] [] (by decide)

lemma runCommitAttempt_readonly_ok {db : TxDB} {wf : String} {fid : Nat}
    (snap txid : String) (v : Json) (buffer : Buffer)
    (h : lookupTx db wf fid = none) :
    runCommitAttempt wf fid true snap txid (.ok v) db buffer
      = ⟨.ok v, db, bufSet (guardOperation buffer fid snap) fid ⟨v, snap⟩, true⟩ := by
  unfold runCommitAttempt wrappedTransaction
  rw [checkExecution_of_none snap h]
  simp

lemma lookupTx_map_bufSet (wf : String) (fid : Nat) (b : Buffer) (r : BufferedResult) :
    lookupTx ((bufSet b fid r).map
        (fun e => ((wf, e.1), (⟨e.2.output, Json.null, e.2.txn_snapshot, none⟩ : TxRow)))) wf fid
      = some ⟨r.output, Json.null, r.txn_snapshot, none⟩ := by
  unfold bufSet lookupTx
  rw [List.map_append, List.find?_append]
  have hn : ((b.filter (fun e => decide (e.1 ≠ fid))).map
      (fun e => ((wf, e.1), (⟨e.2.output, Json.null, e.2.txn_snapshot, none⟩ : TxRow)))).find?
        (fun e => decide (e.1 = (wf, fid))) = none := by
    rw [List.find?_eq_none]
    intro x hx
    obtain ⟨a, ha, rfl⟩ := List.mem_map.mp hx
    have hfil := List.of_mem_filter ha
    simp at hfil ⊢
    exact hfil
  rw [hn]
  simp [List.find?]

/-- C7.  A read-only transactional step over an unrecorded (workflow id,
function id) writes nothing to `dbos.transaction_outputs` during its own
transaction: the database is unchanged, the guard was taken and then
overwritten by the step's output in the in-memory result buffer keyed by the
function id, and the durable write is deferred — a later flush of that buffer
installs the row. -/
theorem claim7_readonly_step_buffers_output
    (cfgs : List (String × TxConfig)) (name : String) (cfg : TxConfig)
    (wf : String) (fid : Nat) (snap txid : String) (v : Json)
    (k : Nat) (db : TxDB) (buffer : Buffer)
    (hcfg : lookupCfg cfgs name = some cfg)
    (hro : cfg.readOnly = some true)
    (hnone : lookupTx db wf fid = none)
    (hfresh : ∀ e ∈ buffer, lookupTx db wf e.1 = none) :
    (transactionCall cfgs name wf fid snap txid (.ok v)
        (List.replicate k .serFail ++ [.commit]) db buffer).finished = some (.ok v) ∧
    (transactionCall cfgs name wf fid snap txid (.ok v)
        (List.replicate k .serFail ++ [.commit]) db buffer).db = db ∧
    bufLookup (transactionCall cfgs name wf fid snap txid (.ok v)
        (List.replicate k .serFail ++ [.commit]) db buffer).buffer fid = some ⟨v, snap⟩ ∧
    ∃ db2, flushResultBuffer wf
        (transactionCall cfgs name wf fid snap txid (.ok v)
          (List.replicate k .serFail ++ [.commit]) db buffer).buffer
        (transactionCall cfgs name wf fid snap txid (.ok v)
          (List.replicate k .serFail ++ [.commit]) db buffer).db = .ok db2 ∧
      lookupTx db2 wf fid = some ⟨v, Json.null, snap, none⟩ := by
  have hbuf2 : ∀ e ∈ bufSet (guardOperation buffer fid snap) fid ⟨v, snap⟩,
      lookupTx db wf e.1 = none := by
    intro e he
    rcases mem_bufSet he with h1 | h2
    · rcases mem_bufSet h1 with h3 | h4
      · exact hfresh e h3
      · rw [h4]; exact hnone
    · rw [h2]; exact hnone
  have heq : transactionCall cfgs name wf fid snap txid (.ok v)
      (List.replicate k .serFail ++ [.commit]) db buffer
      = ⟨some (.ok v), db, bufSet (guardOperation buffer fid snap) fid ⟨v, snap⟩,
         (List.range k).map (fun i => 1 * 2 ^ i), 1⟩ := by
    unfold transactionCall
    rw [hcfg]
    dsimp only
    rw [hro]
    rw [transactionLoopAux_serFail_commit]
    rw [show (some true).getD false = true from rfl]
    rw [runCommitAttempt_readonly_ok snap txid v buffer hnone]
    simp
  rw [heq]
  refine ⟨rfl, rfl, bufLookup_bufSet _ _ _, ?_⟩
  refine ⟨_, flushResultBuffer_ok_of_fresh hbuf2, ?_⟩
  rw [lookupTx_append_right hnone, lookupTx_map_bufSet]

theorem claim7_readonly_step_buffers_output_witness :
    (transactionCall [("t", ⟨some true⟩)] "t" "W" 0 "s" "x" (.ok (Json.num 5))
        (List.replicate 0 .serFail ++ [.commit]) [] []).finished = some (.ok (Json.num 5)) ∧
    (transactionCall [("t", ⟨some true⟩)] "t" "W" 0 "s" "x" (.ok (Json.num 5))
        (List.replicate 0 .serFail ++ [.commit]) [] []).db = [] ∧
    bufLookup (transactionCall [("t", ⟨some true⟩)] "t" "W" 0 "s" "x" (.ok (Json.num 5))
        (List.replicate 0 .serFail ++ [.commit]) [] []).buffer 0 = some ⟨Json.num 5, "s"⟩ ∧
    ∃ db2, flushResultBuffer "W"
        (transactionCall [("t", ⟨some true⟩)] "t" "W" 0 "s" "x" (.ok (Json.num 5))
          (List.replicate 0 .serFail ++ [.commit]) [] []).buffer
        (transactionCall [("t", ⟨some true⟩)] "t" "W" 0 "s" "x" (.ok (Json.num 5))
          (List.replicate 0 .serFail ++ [.commit]) [] []).db = .ok db2 ∧
      lookupTx db2 "W" 0 = some ⟨Json.num 5, Json.null, "s", none⟩ :=
  claim7_readonly_step_buffers_output [("t", ⟨some true⟩)] "t" ⟨some true⟩ "W" 0 "s" "x"
    (Json.num 5) 0 [] [] (by decide) rfl (by decide) (by simp)

/-- C8.  A child-workflow launch performed when the parent's counter holds n
assigns the child the id `parent + "-" + n`, with n drawn from the counter
before the child is scheduled (the counter advancing to n + 1); the debug
replay context's `startChildWorkflow` computes the identical id, so the same
launch site yields the same child id on every run, in normal execution and
in debug replay alike. -/
theorem claim8_child_workflow_deterministic_id (p : String) (n : Nat) (debugMode : Bool) :
    childWorkflow debugMode p n = ⟨p ++ "-" ++ toString n, n, n + 1⟩ ∧
    debugStartChildWorkflow p n = childWorkflow debugMode p n := by
  cases debugMode <;>
    simp [childWorkflow, debugStartChildWorkflow, functionIDGetIncrement]

/-- C9, counterexample.  The runtime's status constant defines neither
RETRIES_EXCEEDED nor CANCELLED: the claimed five-element status set does not
match the code, whose `StatusString` has exactly three members. -/
theorem claim9_counterexample_missing_statuses :
    "RETRIES_EXCEEDED" ∉ StatusString ∧ "CANCELLED" ∉ StatusString := by
  decide

/-- C9, amended.  The status of a workflow instance always lies in
{PENDING, SUCCESS, ERROR} — the three values of the `StatusString` constant,
each of which the runtime can assign — and these are the only defined status
values. -/
theorem claim9_status_values :
    "PENDING" ∈ StatusString ∧ "SUCCESS" ∈ StatusString ∧ "ERROR" ∈ StatusString ∧
    ∀ s ∈ StatusString, s = "PENDING" ∨ s = "SUCCESS" ∨ s = "ERROR" := by
  decide

theorem claim9_status_values_witness :
    "PENDING" = "PENDING" ∨ "PENDING" = "SUCCESS" ∨ "PENDING" = "ERROR" :=
  claim9_status_values.2.2.2 "PENDING" (by decide)

/-- C10.  In debug replay of a transactional step with a recorded output
(the recorded error field decodes to null), the call returns the originally
recorded output; the user transaction is re-executed exactly when a debug
proxy is configured, and a differing re-executed result only changes the log
— except that when the re-execution returns `undefined` and the recorded
output is empty (JavaScript-falsy), `undefined` is returned. -/
theorem claim10_debug_replay_returns_recorded
    (debugProxy : Bool) (db : TxDB) (wf : String) (fid : Nat)
    (user : Except Json DVal) (row : TxRow)
    (hrow : lookupTx db wf fid = some row)
    (herr : row.error = Json.null) :
    (debugTransaction debugProxy db wf fid user).2 = debugProxy ∧
    (debugTransaction debugProxy db wf fid user).1
      = .ok (if debugProxy = true ∧ user = .ok DVal.undef ∧ jsFalsy row.output = true
             then DVal.undef else DVal.val row.output) := by
  unfold debugTransaction
  rw [hrow]
  cases debugProxy with
  | false =>
    simp [herr]
  | true =>
    cases user with
    | error e => simp [herr]
    | ok dv =>
      by_cases hdv : dv = DVal.undef
      · subst hdv
        by_cases hf : jsFalsy row.output = true
        · simp [herr, hf]
        · simp [herr, hf]
      · simp [herr, hdv]

theorem claim10_debug_replay_returns_recorded_witness :
    (debugTransaction true [(("W", 0), ⟨Json.num 3, Json.null, "s", some "t"⟩)] "W" 0
        (.ok (.val (Json.num 4)))).2 = true ∧
    (debugTransaction true [(("W", 0), ⟨Json.num 3, Json.null, "s", some "t"⟩)] "W" 0
        (.ok (.val (Json.num 4)))).1
      = .ok (if true = true ∧ (.ok (.val (Json.num 4)) : Except Json DVal) = .ok DVal.undef ∧
                jsFalsy (Json.num 3) = true
             then DVal.undef else DVal.val (Json.num 3)) :=
  claim10_debug_replay_returns_recorded true [(("W", 0), ⟨Json.num 3, Json.null, "s", some "t"⟩)]
    "W" 0 (.ok (.val (Json.num 4))) ⟨Json.num 3, Json.null, "s", some "t"⟩ (by decide) rfl
